import Mathlib

/-!
Verification of the graceful-shutdown library (deadelus/go-clean-app).

The development shallowly embeds the two relevant Go packages:

* package lifecycle (src/lifecycle/lifecycle.go): the Gracefull struct, its
  Register method, and the shutdown round gracefullAll / gracefullOne.  The
  Go map from hook name to callback is modelled as an association list with
  unique names; a callback of Go type func() error is modelled by the value
  it returns when invoked (none = nil error).  The unbuffered done channel
  is modelled by the number of values sent on it, together with the Go
  rendezvous rule that each sent value is received by exactly one receiver.
  The shutdown round is modelled as the trace of observable events it emits;
  the concurrent execution of the hook goroutines is captured by quantifying
  over every scheduler ordering (permutation) of the per-hook events.

* package application (the New constructor and its functional options): the
  Engine identity fields, the option mutators from option.go, the defaulting
  rules of New, and the signal-listener goroutine. The listener, the
  context.WithCancel pair and the goroutine spawned by NewGracefullShutdown
  are modelled together as a small state machine on cancellation events,
  using the documented idempotence of a context CancelFunc.
-/

namespace GoCleanApp

/-- Result of a hook callback of Go type func() error: none models a nil
error, some e an error with message e. -/
abbrev Err := String

/-- A registered shutdown hook: its unique name (the key of the Go map
functions) and its callback, modelled by the result the callback returns. -/
structure Hook where
  name : String
  result : Option Err
  deriving Repr, DecidableEq

/-- The Gracefull struct of src/lifecycle/lifecycle.go lines 17-20: the hook
map (association list with unique names; insertion order is recorded but no
theorem relies on it, matching the unspecified Go map iteration order) and
the unbuffered done channel, modelled by how many values were sent on it. -/
structure Gracefull where
  functions : List Hook
  doneSent : Nat
  deriving Repr, DecidableEq

/-- NewGracefullShutdown (lifecycle.go lines 28-40): fresh empty map and a
fresh channel with no value sent yet.  The goroutine it spawns, which waits
on ctx.Done() and then runs gracefullAll once, is modelled by the
CancelState machine below. -/
def NewGracefullShutdown : Gracefull :=
  { functions := [], doneSent := 0 }

/-- Register (lifecycle.go lines 43-49): when name is already a key of the
map, return nil leaving the map untouched; otherwise store the callback
under name and return nil. -/
def Register (g : Gracefull) (name : String) (callback : Option Err) :
    Gracefull × Option Err :=
  if g.functions.any (fun h => h.name == name) then (g, none)
  else ({ g with functions := g.functions ++ [{ name := name, result := callback }] }, none)

/-- The callback currently stored under name, when present (map lookup). -/
def lookupHook (g : Gracefull) (name : String) : Option (Option Err) :=
  (g.functions.find? (fun h => h.name == name)).map Hook.result

/-- Observable events of a shutdown round: the log lines written through
log.Println / log.Printf, the return of one hook callback, and the
publication of the completion value on the done channel. -/
inductive Event where
  | logLine (msg : String)
  | hookReturned (name : String) (result : Option Err)
  | publishCompletion
  deriving Repr, DecidableEq

/-- gracefullOne (lifecycle.go lines 69-79): the events of the one goroutine
running a single hook.  The callback returns first; on an error the error is
logged and the function returns (the deferred wg.Done still runs), otherwise
success is logged. -/
def gracefullOne (h : Hook) : List Event :=
  match h.result with
  | some e =>
      [Event.hookReturned h.name (some e),
       Event.logLine ("Error during gracefull shutdown of " ++ h.name ++ ": " ++ e)]
  | none =>
      [Event.hookReturned h.name none,
       Event.logLine ("Gracefull shutdown of " ++ h.name ++ " completed successfully")]

/-- The events produced by the hook goroutines of one shutdown round, before
any interleaving is chosen.  A real execution emits some interleaving of
these per-goroutine traces; every such interleaving is a permutation of this
concatenation, so the theorems below quantify over all permutations. -/
def barrierEvents (hooks : List Hook) : List Event :=
  (hooks.map gracefullOne).flatten

/-- gracefullAll (lifecycle.go lines 52-66) as a trace: the opening log
line, then the scheduled events of the hook goroutines, and only after
wg.Wait has joined all of them the closing log line and the single send on
the done channel. -/
def gracefullAllTrace (sched : List Event) : List Event :=
  Event.logLine "Shutting down in progress..." ::
    (sched ++ [Event.logLine "Shutdown is over.", Event.publishCompletion])

/-- gracefullAll as a state transformer on the Gracefull struct: one
shutdown round performs exactly one send on the done channel. -/
def gracefullAll (g : Gracefull) (sched : List Event) : Gracefull × List Event :=
  ({ g with doneSent := g.doneSent + 1 }, gracefullAllTrace sched)

/-- Recogniser for the completion publication event. -/
def isPublish : Event → Bool
  | Event.publishCompletion => true
  | _ => false

/-- Recogniser for the return event of the hook registered under name. -/
def returnsOf (name : String) : Event → Bool
  | Event.hookReturned n _ => n == name
  | _ => false

/-- Index of the first occurrence of an event in a trace (length of the
trace when absent). -/
def firstPos (e : Event) : List Event → Nat
  | [] => 0
  | x :: xs => if x = e then 0 else firstPos e xs + 1

/-- The done channel is unbuffered (make with no capacity, lifecycle.go
line 31) and gracefullAll publishes completion with a single channel send,
not a close.  By the Go memory and channel model each sent value is
received by exactly one receiver, so k sends release min k w out of w
blocked waiters; the remaining waiters stay blocked. -/
def releasedWaiters (sends waiters : Nat) : Nat :=
  min sends waiters

/-- Joint state of the cancellation machinery of New (the context.WithCancel
pair, the signal-listener goroutine spawned by New, and the goroutine
spawned by NewGracefullShutdown that waits on ctx.Done() and then runs
gracefullAll): whether the context is cancelled, whether the signal handler
is still registered (signal.Notify active, listener goroutine alive), how
many shutdown rounds were started, and how many completion values the
rounds sent. -/
structure CancelState where
  cancelled : Bool
  listening : Bool
  shutdownRounds : Nat
  completionsSent : Nat
  deriving Repr, DecidableEq

/-- State right after New returned: context live, signal handler installed,
no shutdown round yet. -/
def initState : CancelState :=
  { cancelled := false, listening := true, shutdownRounds := 0, completionsSent := 0 }

/-- The context CancelFunc: per its documentation the first call cancels the
context and subsequent calls do nothing.  The first cancellation closes
ctx.Done(), which wakes the goroutine of NewGracefullShutdown exactly once;
that goroutine runs gracefullAll once, which sends one completion value. -/
def cancel (s : CancelState) : CancelState :=
  if s.cancelled then s
  else { s with cancelled := true,
                shutdownRounds := s.shutdownRounds + 1,
                completionsSent := s.completionsSent + 1 }

/-- External stimuli that can trigger cancellation: an OS termination
signal (interrupt or SIGTERM) delivered to the signal channel, or a direct
call of the cancel function. -/
inductive CancelEvent where
  | osSignal
  | explicitCancel
  deriving Repr, DecidableEq

/-- One step of the listener goroutine of New: on a signal, when
the handler is still registered and the context not yet cancelled, the
select takes the signal branch, calls signal.Stop (deregistering the
handler) and then cancel.  After cancellation the goroutine has exited
through the ctx.Done() branch, and after signal.Stop the signal is no
longer delivered, so in either case a signal changes nothing.  An explicit
cancellation always goes straight to the (idempotent) cancel function. -/
def stepEvent (s : CancelState) : CancelEvent → CancelState
  | CancelEvent.osSignal =>
      if s.listening && !s.cancelled then cancel { s with listening := false }
      else s
  | CancelEvent.explicitCancel => cancel s

/-- Processing a sequence of cancellation stimuli. -/
def run (s : CancelState) (evs : List CancelEvent) : CancelState :=
  evs.foldl stepEvent s

/-- Whether a stimulus converts an OS signal into a cancellation in the
given state. -/
def convertsSignal (s : CancelState) : CancelEvent → Bool
  | CancelEvent.osSignal => s.listening && !s.cancelled
  | CancelEvent.explicitCancel => false

/-- Number of signal-to-cancellation conversions performed while processing
a sequence of stimuli. -/
def conversions : CancelState → List CancelEvent → Nat
  | _, [] => 0
  | s, e :: rest => (if convertsSignal s e then 1 else 0) + conversions (stepEvent s e) rest

/-- The Engine data of package application: the identity fields appName,
appVersion, appEnv, appDebug, the cli_mode value that WithCLIMode stores in
the context, and the Gracefull orchestrator built by New.  The ctx and
logger fields carry no further data relevant here: the context is modelled
by the CancelState machine and the cliMode flag, and the logger is an
opaque interface value set by an option. -/
structure Engine where
  appName : String
  appVersion : String
  appEnv : String
  appDebug : Bool
  cliMode : Bool
  gracefull : Gracefull
  deriving Repr, DecidableEq

/-- The Option type of option.go: a function that configures the Engine. -/
abbrev EngineOption := Engine → Engine

/-- WithCLIMode (option.go): stores cli_mode = true in the context. -/
def WithCLIMode : EngineOption :=
  fun e => { e with cliMode := true }

/-- Version (option.go): sets the application version. -/
def Version (version : String) : EngineOption :=
  fun e => { e with appVersion := version }

/-- AppName (option.go): sets the application name. -/
def AppName (name : String) : EngineOption :=
  fun e => { e with appName := name }

/-- Debug (option.go): sets the debug mode. -/
def Debug (debug : Bool) : EngineOption :=
  fun e => { e with appDebug := debug }

/-- Env (option.go): sets the application environment. -/
def Env (env : String) : EngineOption :=
  fun e => { e with appEnv := env }

/-- The option loop of New: the options are applied in order to the freshly
built engine. -/
def applyOptions (options : List EngineOption) (e : Engine) : Engine :=
  options.foldl (fun acc o => o acc) e

/-- The engine New builds before applying options: zero values for the
identity fields, a fresh shutdown orchestrator. -/
def initialEngine : Engine :=
  { appName := "", appVersion := "", appEnv := "", appDebug := false,
    cliMode := false, gracefull := NewGracefullShutdown }

/-- The defaulting block of New, run after the option loop: empty name
becomes application, empty version becomes 0.1.0, empty environment becomes
development. -/
def applyDefaults (e : Engine) : Engine :=
  { e with
      appName := if e.appName = "" then "application" else e.appName,
      appVersion := if e.appVersion = "" then "0.1.0" else e.appVersion,
      appEnv := if e.appEnv = "" then "development" else e.appEnv }

/-- New (package application): builds the engine, applies the options, then
the defaults, and returns the engine together with a nil error.  The two
goroutines New spawns are modelled by the CancelState machine. -/
def New (options : List EngineOption) : Engine × Option Err :=
  (applyDefaults (applyOptions options initialEngine), none)

/-- Lock and map operations, for stating what synchronisation the lifecycle
code performs on the hook map. -/
inductive SyncAction where
  | lockAcquire
  | lockRelease
  | mapRead
  | mapWrite
  deriving Repr, DecidableEq

/-- The sequence of lock and map operations Register performs (lifecycle.go
lines 43-49): the membership test reads the map, and when the name is
absent the assignment writes it.  The Gracefull struct declares no mutex
and Register acquires no lock. -/
def registerActions (nameAlreadyPresent : Bool) : List SyncAction :=
  if nameAlreadyPresent then [SyncAction.mapRead]
  else [SyncAction.mapRead, SyncAction.mapWrite]

/-- The map operations of the shutdown snapshot: the range loop of
gracefullAll (lifecycle.go lines 56-60) reads the map, under no lock. -/
def snapshotActions : List SyncAction :=
  [SyncAction.mapRead]

/-! Helper lemmas on shutdown-round traces. -/

theorem barrierEvents_nil : barrierEvents [] = [] := rfl

theorem barrierEvents_cons (h : Hook) (t : List Hook) :
    barrierEvents (h :: t) = gracefullOne h ++ barrierEvents t := rfl

theorem countP_isPublish_gracefullOne : ∀ h : Hook, (gracefullOne h).countP isPublish = 0
  | ⟨_, none⟩ => rfl
  | ⟨_, some _⟩ => rfl

theorem countP_isPublish_barrier (hooks : List Hook) :
    (barrierEvents hooks).countP isPublish = 0 := by
  induction hooks with
  | nil => rfl
  | cons h t ih =>
      rw [barrierEvents_cons, List.countP_append, countP_isPublish_gracefullOne, ih]

theorem publish_not_mem_of_countP_zero {l : List Event}
    (h : l.countP isPublish = 0) : Event.publishCompletion ∉ l := by
  intro hmem
  have := List.countP_eq_zero.mp h _ hmem
  simp [isPublish] at this

theorem hookReturned_mem_gracefullOne : ∀ h : Hook,
    Event.hookReturned h.name h.result ∈ gracefullOne h
  | ⟨_, none⟩ => List.mem_cons_self _ _
  | ⟨_, some _⟩ => List.mem_cons_self _ _

theorem mem_barrier_of_mem_gracefullOne {ev : Event} {h : Hook} {hooks : List Hook}
    (hm : h ∈ hooks) (hev : ev ∈ gracefullOne h) : ev ∈ barrierEvents hooks := by
  induction hooks with
  | nil => cases hm
  | cons a t ih =>
      rw [barrierEvents_cons]
      rcases List.mem_cons.mp hm with rfl | hm2
      · exact List.mem_append_left _ hev
      · exact List.mem_append_right _ (ih hm2)

theorem mem_trace_of_mem_sched {ev : Event} {sched : List Event} (hs : ev ∈ sched) :
    ev ∈ gracefullAllTrace sched :=
  List.mem_cons_of_mem _ (List.mem_append_left _ hs)

theorem firstPos_cons_ne {x e : Event} (xs : List Event) (hne : x ≠ e) :
    firstPos e (x :: xs) = firstPos e xs + 1 := by
  simp [firstPos, hne]

theorem firstPos_lt_length_of_mem {e : Event} {l : List Event} (hm : e ∈ l) :
    firstPos e l < l.length := by
  induction l with
  | nil => cases hm
  | cons x xs ih =>
      by_cases hx : x = e
      · subst hx
        simp [firstPos]
      · rw [firstPos_cons_ne xs hx]
        rcases List.mem_cons.mp hm with rfl | hm2
        · exact absurd rfl hx
        · simpa [List.length_cons, Nat.succ_lt_succ_iff] using ih hm2

theorem firstPos_append_of_mem {e : Event} {l : List Event} (hm : e ∈ l)
    (l2 : List Event) : firstPos e (l ++ l2) = firstPos e l := by
  induction l with
  | nil => cases hm
  | cons x xs ih =>
      by_cases hx : x = e
      · subst hx
        simp [firstPos]
      · rcases List.mem_cons.mp hm with rfl | hm2
        · exact absurd rfl hx
        · rw [List.cons_append, firstPos_cons_ne (xs ++ l2) hx,
            firstPos_cons_ne xs hx, ih hm2]

theorem firstPos_append_of_not_mem {e : Event} {l : List Event} (hm : e ∉ l)
    (l2 : List Event) : firstPos e (l ++ l2) = l.length + firstPos e l2 := by
  induction l with
  | nil => simp
  | cons x xs ih =>
      have hx : x ≠ e := fun hxe => hm (hxe ▸ List.mem_cons_self x xs)
      have hx2 : e ∉ xs := fun hmem => hm (List.mem_cons_of_mem _ hmem)
      rw [List.cons_append, firstPos_cons_ne (xs ++ l2) hx, ih hx2, List.length_cons]
      omega

theorem countP_returnsOf_gracefullOne (name : String) : ∀ h : Hook,
    (gracefullOne h).countP (returnsOf name) = if h.name == name then 1 else 0 := by
  intro h
  obtain ⟨n, r⟩ := h
  cases r <;> simp [gracefullOne, returnsOf, List.countP_cons]

theorem countP_returnsOf_barrier (name : String) (hooks : List Hook) :
    (barrierEvents hooks).countP (returnsOf name) =
      (hooks.map Hook.name).countP (fun n => n == name) := by
  induction hooks with
  | nil => rfl
  | cons h t ih =>
      rw [barrierEvents_cons, List.countP_append, countP_returnsOf_gracefullOne,
        ih, List.map_cons, List.countP_cons]
      omega

theorem countP_beq_eq_one_of_nodup_mem {names : List String} {name : String}
    (hnodup : names.Nodup) (hmem : name ∈ names) :
    names.countP (fun n => n == name) = 1 := by
  induction names with
  | nil => cases hmem
  | cons a t ih =>
      rw [List.countP_cons]
      rcases List.nodup_cons.mp hnodup with ⟨hnotmem, hnd⟩
      rcases List.mem_cons.mp hmem with rfl | hm2
      · have h0 : t.countP (fun n => n == name) = 0 := by
          refine List.countP_eq_zero.mpr ?_
          intro x hx hbeq
          exact hnotmem (by simpa using (eq_of_beq hbeq).symm ▸ hx)
        simp [h0]
      · have hne : (a == name) = false := by
          refine beq_eq_false_iff_ne.mpr ?_
          rintro rfl
          exact hnotmem hm2
        rw [ih hnd hm2, hne]
        simp

/-! Helper lemmas on the cancellation state machine. -/

theorem stepEvent_cancelled_mono (s : CancelState) (e : CancelEvent)
    (h : s.cancelled = true) : (stepEvent s e).cancelled = true := by
  cases e <;> simp [stepEvent, cancel, h]

theorem stepEvent_cancelled_of_converts (s : CancelState) (e : CancelEvent)
    (h : convertsSignal s e = true) : (stepEvent s e).cancelled = true := by
  cases e with
  | osSignal =>
      have hl : s.listening = true ∧ s.cancelled = false := by
        simpa [convertsSignal, Bool.and_eq_true] using h
      simp [stepEvent, cancel, hl.1, hl.2]
  | explicitCancel => simp [convertsSignal] at h

theorem conversions_eq_zero_of_cancelled (evs : List CancelEvent) :
    ∀ s : CancelState, s.cancelled = true → conversions s evs = 0 := by
  induction evs with
  | nil => intro s _; rfl
  | cons e rest ih =>
      intro s h
      have hc : convertsSignal s e = false := by
        cases e <;> simp [convertsSignal, h]
      simp only [conversions, hc, if_false, Bool.false_eq_true, Nat.zero_add]
      exact ih _ (stepEvent_cancelled_mono s e h)

theorem conversions_le_one (evs : List CancelEvent) :
    ∀ s : CancelState, conversions s evs ≤ 1 := by
  induction evs with
  | nil => intro s; exact Nat.zero_le 1
  | cons e rest ih =>
      intro s
      by_cases hc : convertsSignal s e = true
      · have h0 := conversions_eq_zero_of_cancelled rest (stepEvent s e)
          (stepEvent_cancelled_of_converts s e hc)
        simp [conversions, hc, h0]
      · have hc2 : convertsSignal s e = false := by simpa using hc
        simp only [conversions, hc2, if_false, Bool.false_eq_true, Nat.zero_add]
        exact ih _

theorem logLine_ne_publish (s : String) : Event.logLine s ≠ Event.publishCompletion :=
  fun hx => Event.noConfusion hx

theorem logLine_ne_hookReturned (s n : String) (r : Option Err) :
    Event.logLine s ≠ Event.hookReturned n r :=
  fun hx => Event.noConfusion hx

theorem countP_isPublish_trace {sched : List Event} (hps : sched.countP isPublish = 0) :
    (gracefullAllTrace sched).countP isPublish = 1 := by
  simp [gracefullAllTrace, List.countP_cons, List.countP_append, hps, isPublish]

/-! Claim theorems. -/

/-- Claim C1: for every set of registered hooks (including the empty one)
and every scheduler interleaving of the concurrently running hook
goroutines, the shutdown round publishes the completion value exactly once,
every hook of the round returns within the barrier section of the trace,
and the publication occurs strictly after every hook has returned,
regardless of hook latency (the interleaving is arbitrary) and of hook
success or failure. -/
theorem completion_published_after_all_hooks (hooks : List Hook) (sched : List Event)
    (hp : sched.Perm (barrierEvents hooks)) :
    (gracefullAllTrace sched).countP isPublish = 1 ∧
    ∀ h ∈ hooks,
      Event.hookReturned h.name h.result ∈ sched ∧
      firstPos (Event.hookReturned h.name h.result) (gracefullAllTrace sched) <
        firstPos Event.publishCompletion (gracefullAllTrace sched) := by
  have hps : sched.countP isPublish = 0 :=
    (hp.countP_eq isPublish).trans (countP_isPublish_barrier hooks)
  have hnp : Event.publishCompletion ∉ sched := publish_not_mem_of_countP_zero hps
  have htail : firstPos Event.publishCompletion
      [Event.logLine "Shutdown is over.", Event.publishCompletion] = 1 := by
    rw [firstPos_cons_ne _ (logLine_ne_publish _)]
    simp [firstPos]
  have hpubpos : firstPos Event.publishCompletion (gracefullAllTrace sched) =
      sched.length + 2 := by
    simp only [gracefullAllTrace]
    rw [firstPos_cons_ne _ (logLine_ne_publish _),
      firstPos_append_of_not_mem hnp, htail]
  refine ⟨countP_isPublish_trace hps, ?_⟩
  intro h hm
  have hmemsched : Event.hookReturned h.name h.result ∈ sched :=
    hp.mem_iff.mpr (mem_barrier_of_mem_gracefullOne hm (hookReturned_mem_gracefullOne h))
  refine ⟨hmemsched, ?_⟩
  have hretpos : firstPos (Event.hookReturned h.name h.result) (gracefullAllTrace sched) =
      firstPos (Event.hookReturned h.name h.result) sched + 1 := by
    simp only [gracefullAllTrace]
    rw [firstPos_cons_ne _ (logLine_ne_hookReturned _ _ _),
      firstPos_append_of_mem hmemsched]
  rw [hretpos, hpubpos]
  have hlt := firstPos_lt_length_of_mem hmemsched
  omega

/-- Claim C1, witness: one hook, scheduled in program order. -/
theorem completion_published_after_all_hooks_witness :
    (gracefullAllTrace (barrierEvents [⟨"a", none⟩])).countP isPublish = 1 ∧
    firstPos (Event.hookReturned "a" none) (gracefullAllTrace (barrierEvents [⟨"a", none⟩])) <
      firstPos Event.publishCompletion (gracefullAllTrace (barrierEvents [⟨"a", none⟩])) := by
  have h := completion_published_after_all_hooks [⟨"a", none⟩]
    (barrierEvents [⟨"a", none⟩]) (List.Perm.refl _)
  exact ⟨h.1, (h.2 ⟨"a", none⟩ (by decide)).2⟩

/-- Claim C3: registering a name that is already present leaves the
registry (and in particular the callback stored under that name)
unchanged, silently returning nil, and the subsequent shutdown round
contains exactly one hook-return event for that name. -/
theorem register_existing_name_noop (g : Gracefull) (name : String) (cb : Option Err)
    (hnodup : (g.functions.map Hook.name).Nodup)
    (hpresent : g.functions.any (fun h => h.name == name) = true) :
    Register g name cb = (g, none) ∧
    lookupHook (Register g name cb).1 name = lookupHook g name ∧
    (barrierEvents (Register g name cb).1.functions).countP (returnsOf name) = 1 := by
  have hreg : Register g name cb = (g, none) := by
    simp [Register, hpresent]
  refine ⟨hreg, by rw [hreg], ?_⟩
  rw [hreg, countP_returnsOf_barrier]
  have hmem : name ∈ g.functions.map Hook.name := by
    rcases List.any_eq_true.mp hpresent with ⟨h, hm, hbeq⟩
    exact List.mem_map.mpr ⟨h, hm, eq_of_beq hbeq⟩
  exact countP_beq_eq_one_of_nodup_mem hnodup hmem

/-- Claim C3, witness: re-registering the name a with a different callback
leaves the registry untouched, and the round runs a exactly once. -/
theorem register_existing_name_noop_witness :
    Register { functions := [{ name := "a", result := some "x" }], doneSent := 0 } "a" none =
      ({ functions := [{ name := "a", result := some "x" }], doneSent := 0 }, none) ∧
    (barrierEvents (Register { functions := [{ name := "a", result := some "x" }], doneSent := 0 }
      "a" none).1.functions).countP (returnsOf "a") = 1 := by
  have h := register_existing_name_noop
    { functions := [{ name := "a", result := some "x" }], doneSent := 0 } "a" none
    (by decide) (by decide)
  exact ⟨h.1, h.2.2⟩

/-- Claim C4: when one hook returns an error during the shutdown round,
the error is logged, every hook of the round (the failing one included)
still returns, and the completion value is still published exactly once;
the publication event carries no error, so nothing propagates to other
hooks or to the waiters. -/
theorem hook_error_isolated (hooks : List Hook) (sched : List Event)
    (hp : sched.Perm (barrierEvents hooks))
    (h : Hook) (hm : h ∈ hooks) (e : Err) (he : h.result = some e) :
    Event.logLine ("Error during gracefull shutdown of " ++ h.name ++ ": " ++ e) ∈
      gracefullAllTrace sched ∧
    (∀ h2 ∈ hooks, Event.hookReturned h2.name h2.result ∈ gracefullAllTrace sched) ∧
    (gracefullAllTrace sched).countP isPublish = 1 := by
  have herrlog : Event.logLine ("Error during gracefull shutdown of " ++ h.name ++ ": " ++ e) ∈
      gracefullOne h := by
    simp [gracefullOne, he]
  refine ⟨?_, ?_, ?_⟩
  · exact mem_trace_of_mem_sched (hp.mem_iff.mpr (mem_barrier_of_mem_gracefullOne hm herrlog))
  · intro h2 hm2
    exact mem_trace_of_mem_sched (hp.mem_iff.mpr
      (mem_barrier_of_mem_gracefullOne hm2 (hookReturned_mem_gracefullOne h2)))
  · exact countP_isPublish_trace ((hp.countP_eq isPublish).trans (countP_isPublish_barrier hooks))

/-- Claim C4, witness: hook b fails while hook a succeeds; the error of b
is logged, a still returns, and completion is still published once. -/
theorem hook_error_isolated_witness :
    Event.logLine ("Error during gracefull shutdown of " ++ "b" ++ ": " ++ "boom") ∈
      gracefullAllTrace (barrierEvents [⟨"a", none⟩, ⟨"b", some "boom"⟩]) ∧
    Event.hookReturned "a" none ∈
      gracefullAllTrace (barrierEvents [⟨"a", none⟩, ⟨"b", some "boom"⟩]) ∧
    (gracefullAllTrace (barrierEvents [⟨"a", none⟩, ⟨"b", some "boom"⟩])).countP isPublish = 1 := by
  have h := hook_error_isolated [⟨"a", none⟩, ⟨"b", some "boom"⟩]
    (barrierEvents [⟨"a", none⟩, ⟨"b", some "boom"⟩]) (List.Perm.refl _)
    ⟨"b", some "boom"⟩ (by decide) "boom" rfl
  exact ⟨h.1, h.2.1 ⟨"a", none⟩ (by decide), h.2.2⟩

/-- Claim C2, counterexample: one shutdown round of a fresh orchestrator
performs exactly one send on the unbuffered done channel, and with two
independent waiters blocked on Done() only one of them is released, not
both, refuting the claim that every waiter is released by the single
completion event. -/
theorem single_waiter_released_counterexample :
    (gracefullAll NewGracefullShutdown (barrierEvents [])).1.doneSent = 1 ∧
    releasedWaiters (gracefullAll NewGracefullShutdown (barrierEvents [])).1.doneSent 2 = 1 ∧
    releasedWaiters (gracefullAll NewGracefullShutdown (barrierEvents [])).1.doneSent 2 ≠ 2 := by
  decide

/-- Claim C2, amended: a shutdown round sends exactly one value on the done
channel, so out of w waiters blocked on Done() at most one is released, and
when at least one waiter is present exactly one is released; the remaining
waiters stay blocked (the channel send is single-consumer, not a
broadcast). -/
theorem completion_releases_exactly_one_waiter (g : Gracefull) (sched : List Event)
    (w : Nat) :
    (gracefullAll g sched).1.doneSent = g.doneSent + 1 ∧
    releasedWaiters ((gracefullAll g sched).1.doneSent - g.doneSent) w ≤ 1 ∧
    (1 ≤ w → releasedWaiters ((gracefullAll g sched).1.doneSent - g.doneSent) w = 1) := by
  have hd : (gracefullAll g sched).1.doneSent - g.doneSent = 1 := by
    simp [gracefullAll]
  refine ⟨rfl, ?_, ?_⟩
  · rw [hd]
    exact Nat.min_le_left 1 w
  · intro hw
    rw [hd]
    exact Nat.min_eq_left hw

/-- Claim C2, witness for the amended theorem at two waiters. -/
theorem completion_releases_exactly_one_waiter_witness :
    1 ≤ 2 ∧
    releasedWaiters ((gracefullAll NewGracefullShutdown []).1.doneSent -
      NewGracefullShutdown.doneSent) 2 = 1 :=
  ⟨by decide,
   (completion_releases_exactly_one_waiter NewGracefullShutdown [] 2).2.2 (by decide)⟩

/-- Claim C5: cancellation is idempotent.  Whatever pair of triggering
stimuli arrives (two OS signals, a signal plus an explicit cancel, or two
explicit cancels), exactly one shutdown round is started and exactly one
completion value is sent. -/
theorem cancellation_idempotent (e1 e2 : CancelEvent) :
    (stepEvent (stepEvent initState e1) e2).shutdownRounds = 1 ∧
    (stepEvent (stepEvent initState e1) e2).completionsSent = 1 := by
  cases e1 <;> cases e2 <;> decide

/-- Claim C6, counterexample: Register writes the hook map without ever
acquiring a lock, and the shutdown snapshot also reads it without a lock,
refuting the claim that a lock guards the map against a race between
Register and the shutdown snapshot. -/
theorem register_unlocked_counterexample :
    SyncAction.mapWrite ∈ registerActions false ∧
    SyncAction.lockAcquire ∉ registerActions false ∧
    SyncAction.lockAcquire ∉ snapshotActions := by
  decide

/-- Claim C6, amended: the hook map is indeed mutated only by Register and
only read by the shutdown snapshot, but no lock exists anywhere in the
lifecycle code: neither Register (in either branch) nor the snapshot of
gracefullAll acquires or releases a lock, so nothing guards the race
between a concurrent Register and the shutdown snapshot. -/
theorem no_lock_guards_hook_map :
    (∀ present : Bool,
      SyncAction.lockAcquire ∉ registerActions present ∧
      SyncAction.lockRelease ∉ registerActions present) ∧
    SyncAction.lockAcquire ∉ snapshotActions ∧
    SyncAction.lockRelease ∉ snapshotActions ∧
    SyncAction.mapWrite ∉ snapshotActions := by
  decide

/-- Claim C7: Register always returns a nil error, both when the name is
new and when it is already present; no registration error is possible. -/
theorem register_never_errors (g : Gracefull) (name : String) (cb : Option Err) :
    (Register g name cb).2 = none := by
  unfold Register
  split <;> rfl

/-- Claim C8: after New applies the option sequence, empty identity fields
receive their defaults (application, 0.1.0, development) and non-empty
values set by the options are kept. -/
theorem new_applies_defaults (options : List EngineOption) :
    ((applyOptions options initialEngine).appName = "" →
      (New options).1.appName = "application") ∧
    ((applyOptions options initialEngine).appName ≠ "" →
      (New options).1.appName = (applyOptions options initialEngine).appName) ∧
    ((applyOptions options initialEngine).appVersion = "" →
      (New options).1.appVersion = "0.1.0") ∧
    ((applyOptions options initialEngine).appVersion ≠ "" →
      (New options).1.appVersion = (applyOptions options initialEngine).appVersion) ∧
    ((applyOptions options initialEngine).appEnv = "" →
      (New options).1.appEnv = "development") ∧
    ((applyOptions options initialEngine).appEnv ≠ "" →
      (New options).1.appEnv = (applyOptions options initialEngine).appEnv) := by
  refine ⟨?_, ?_, ?_, ?_, ?_, ?_⟩ <;> intro h <;> simp [New, applyDefaults, h]

/-- Claim C8, witness: with only AppName set, the name option value is
kept while version and environment fall back to their defaults. -/
theorem new_applies_defaults_witness :
    (New [AppName "x"]).1.appName = "x" ∧
    (New [AppName "x"]).1.appVersion = "0.1.0" ∧
    (New [AppName "x"]).1.appEnv = "development" :=
  ⟨((new_applies_defaults [AppName "x"]).2.1 (by decide)).trans (by decide),
   (new_applies_defaults [AppName "x"]).2.2.1 (by decide),
   (new_applies_defaults [AppName "x"]).2.2.2.2.1 (by decide)⟩

/-- Claim C9: when a termination signal arrives while the listener is
still registered and the context not yet cancelled, the listener
deregisters the signal handler and cancels the context; and over any
sequence of stimuli at most one signal-to-cancellation conversion ever
happens. -/
theorem signal_listener_converts_once :
    (∀ s : CancelState, convertsSignal s CancelEvent.osSignal = true →
      (stepEvent s CancelEvent.osSignal).listening = false ∧
      (stepEvent s CancelEvent.osSignal).cancelled = true) ∧
    (∀ evs : List CancelEvent, conversions initState evs ≤ 1) := by
  constructor
  · intro s hs
    have h1 : s.listening = true ∧ s.cancelled = false := by
      simpa [convertsSignal, Bool.and_eq_true] using hs
    constructor <;> simp [stepEvent, cancel, h1.1, h1.2]
  · intro evs
    exact conversions_le_one evs initState

/-- Claim C9, witness: from the freshly constructed state one signal
converts, deregisters and cancels, and two consecutive signals convert
only once. -/
theorem signal_listener_converts_once_witness :
    convertsSignal initState CancelEvent.osSignal = true ∧
    (stepEvent initState CancelEvent.osSignal).listening = false ∧
    (stepEvent initState CancelEvent.osSignal).cancelled = true ∧
    conversions initState [CancelEvent.osSignal, CancelEvent.osSignal] ≤ 1 :=
  ⟨by decide,
   (signal_listener_converts_once.1 initState (by decide)).1,
   (signal_listener_converts_once.1 initState (by decide)).2,
   signal_listener_converts_once.2 [CancelEvent.osSignal, CancelEvent.osSignal]⟩

/-- Claim C10: for every option sequence the constructor New returns an
engine together with a nil error; the error branch of a caller is
unreachable. -/
theorem new_never_fails (options : List EngineOption) :
    (New options).2 = none ∧ ∃ e : Engine, New options = (e, none) :=
  ⟨rfl, ⟨(New options).1, rfl⟩⟩

end GoCleanApp
